import Mathlib

/-!
Shallow embedding of the CHIP-8 emulation core from `src/rust/src/lib.rs`
(struct `Chip8` and its methods), together with theorems checking the
natural-language specification against it.

Modelling conventions:
* Machine integers (`u8`, `u16`, `usize`) are `Nat` with explicit `% 2^w`
  at the operations where Rust wraps (`wrapping_add`, `overflowing_add`,
  `<<=` on `u8`, ...).
* The fixed arrays `memory : [u8; 4096]`, `reg : [u8; 16]`,
  `frame_buffer : [u8; 2048]`, `keys : [u8; 16]` are total functions
  `Nat → Nat`; states reachable in Rust keep every entry below 256 and
  every frame-buffer entry below 2, which theorems take as hypotheses
  where they matter.
* `stack : Vec<usize>` is a `List Nat` whose head is the top of the
  stack (`Vec::push`/`Vec::pop` act on the same end).
* A Rust `panic!` (the explicit `unhandled_opcode_panic`, the `unwrap()`
  of `Vec::pop` on an empty stack, and out-of-bounds array indexing) is
  `Option.none`: the operation produces no successor state.
* The `SmallRng` is a pre-drawn stream `rand_seq : Nat → Nat` plus a
  cursor `rand_pos`; `gen::<u8>()` reads `rand_seq rand_pos % 256` and
  advances the cursor.
* The host callbacks `update_canvas` and `wait_for_keypress` (extern
  `wasm_bindgen` imports, no-ops in native builds) do not change engine
  state, so they are modelled as the identity on the state.
-/

namespace Chip8Core

def FRAME_BUF_WIDTH : Nat := 64
def FRAME_BUF_HEIGHT : Nat := 32
def MEM_MAX : Nat := 0x1000
def REG_MAX : Nat := 16
def FRAME_BUF_MAX : Nat := FRAME_BUF_HEIGHT * FRAME_BUF_WIDTH
def NUM_OF_KEYS : Nat := 16
def START_OF_FONT : Nat := 0x50

/-- State of the emulator: struct `Chip8` in the source. -/
structure Chip8 where
  memory : Nat → Nat
  reg : Nat → Nat
  index_reg : Nat
  stack : List Nat
  frame_buffer : Nat → Nat
  program_counter : Nat
  keys : Nat → Nat
  delay_timer : Nat
  sound_timer : Nat
  rand_seq : Nat → Nat
  rand_pos : Nat

/-- Opcode helper `get_x`: `((opcode & 0x0F00) >> 8) as usize`,
written on `Nat` as `opcode / 0x100 % 0x10`. -/
def get_x (opcode : Nat) : Nat := opcode / 0x100 % 0x10

/-- Opcode helper `get_y`: `((opcode & 0x00F0) >> 4) as usize`,
written on `Nat` as `opcode / 0x10 % 0x10`. -/
def get_y (opcode : Nat) : Nat := opcode / 0x10 % 0x10

/-- Opcode helper `get_kk`: `(opcode & 0x00FF) as u8`, written as `% 0x100`. -/
def get_kk (opcode : Nat) : Nat := opcode % 0x100

/-- Opcode helper `get_nnn`: `opcode & 0x0FFF`, written as `% 0x1000`. -/
def get_nnn (opcode : Nat) : Nat := opcode % 0x1000

/-- Write register `i`: `self.reg[i] = v`. -/
def setReg (s : Chip8) (i v : Nat) : Chip8 :=
  { s with reg := fun j => if j = i then v else s.reg j }

/-- Font table loaded by `new` at 0x50: the `font_data` array literal in the
source (50 bytes, rows of the glyphs it contains, digits 0 through 9). -/
def font_data : List Nat :=
  [0xF0, 0x90, 0x90, 0x90, 0xF0,
   0x20, 0x60, 0x20, 0x20, 0x70,
   0xF0, 0x10, 0xF0, 0x80, 0xF0,
   0xF0, 0x10, 0xF0, 0x10, 0xF0,
   0x90, 0x90, 0xF0, 0x10, 0x10,
   0xF0, 0x80, 0xF0, 0x10, 0xF0,
   0xF0, 0x80, 0xF0, 0x90, 0xF0,
   0xF0, 0x10, 0x20, 0x40, 0x40,
   0xF0, 0x90, 0xF0, 0x90, 0xF0,
   0xF0, 0x90, 0xF0, 0x10, 0xF0]

/-- Constructor `Chip8::new()`: zeroed state, program counter 0x200, fresh
RNG (`from_entropy`, abstracted as an arbitrary byte stream `entropy`), and
`font_data` copied into memory starting at `START_OF_FONT`. -/
def chip8_new (entropy : Nat → Nat) : Chip8 :=
  { memory := fun i =>
      if START_OF_FONT ≤ i ∧ i < START_OF_FONT + font_data.length then
        font_data.getD (i - START_OF_FONT) 0
      else 0
    reg := fun _ => 0
    index_reg := 0
    stack := []
    frame_buffer := fun _ => 0
    program_counter := 0x200
    keys := fun _ => 0
    delay_timer := 0
    sound_timer := 0
    rand_seq := entropy
    rand_pos := 0 }

/-- Method `reset`: fills `memory[0x200..MEM_MAX]` with 0, clears the stack
and the frame buffer, zeroes the index register, keys and both timers, and
sets the program counter to 0x200.  The source does not touch `reg`, the
RNG, or memory below 0x200. -/
def reset (s : Chip8) : Chip8 :=
  { s with
    memory := fun i => if 0x200 ≤ i ∧ i < MEM_MAX then 0 else s.memory i
    stack := []
    frame_buffer := fun _ => 0
    index_reg := 0
    program_counter := 0x200
    keys := fun _ => 0
    delay_timer := 0
    sound_timer := 0 }

/-- Method `xor_pixel`: wraps the coordinates (`rem_euclid`, which on
`usize` is `%`), XORs `val` into the frame buffer at the wrapped index and
reports whether a set pixel became clear. -/
def xor_pixel (s : Chip8) (x y val : Nat) : Chip8 × Bool :=
  let wrapped_x := x % FRAME_BUF_WIDTH
  let wrapped_y := y % FRAME_BUF_HEIGHT
  let index := wrapped_y * FRAME_BUF_WIDTH + wrapped_x
  let start_val := s.frame_buffer index
  let fb := fun i => if i = index then Nat.xor start_val val else s.frame_buffer i
  ({ s with frame_buffer := fb }, start_val == 1 && Nat.xor start_val val == 0)

/-- Opcode family 0x0 (`sys_addr`): 0x00E0 clears the display (the host
callback `update_canvas` does not touch engine state), 0x00EE pops the
stack into the program counter (`unwrap` of an empty pop panics: `none`),
anything else hits `unhandled_opcode_panic`. -/
def sys_addr (s : Chip8) (opcode : Nat) : Option Chip8 :=
  match opcode with
  | 0x00E0 => some { s with frame_buffer := fun _ => 0 }
  | 0x00EE =>
      match s.stack with
      | [] => none
      | a :: rest => some { s with program_counter := a, stack := rest }
  | _ => none

/-- Opcode family 0x1 (`jp_addr`): program counter becomes NNN. -/
def jp_addr (s : Chip8) (opcode : Nat) : Chip8 :=
  { s with program_counter := get_nnn opcode }

/-- Opcode family 0x2 (`call_addr`): push the current program counter and
jump to NNN.  The `Vec` push is unconditional: there is no depth check. -/
def call_addr (s : Chip8) (opcode : Nat) : Chip8 :=
  { s with stack := s.program_counter :: s.stack
           program_counter := get_nnn opcode }

/-- Opcode family 0x3 (`skip_if_equal`): skip 2 when `reg[x] == kk`. -/
def skip_if_equal (s : Chip8) (opcode : Nat) : Chip8 :=
  if s.reg (get_x opcode) = get_kk opcode then
    { s with program_counter := s.program_counter + 2 }
  else s

/-- Opcode family 0x4 (`skip_if_not_equal`): skip 2 when `reg[x] != kk`. -/
def skip_if_not_equal (s : Chip8) (opcode : Nat) : Chip8 :=
  if s.reg (get_x opcode) ≠ get_kk opcode then
    { s with program_counter := s.program_counter + 2 }
  else s

/-- Opcode family 0x5 (`skip_if_reg_equal`): skip 2 when `reg[x] == reg[y]`. -/
def skip_if_reg_equal (s : Chip8) (opcode : Nat) : Chip8 :=
  if s.reg (get_x opcode) = s.reg (get_y opcode) then
    { s with program_counter := s.program_counter + 2 }
  else s

/-- Opcode family 0x9 (`skip_if_reg_not_equal`): skip 2 when
`reg[x] != reg[y]`. -/
def skip_if_reg_not_equal (s : Chip8) (opcode : Nat) : Chip8 :=
  if s.reg (get_x opcode) ≠ s.reg (get_y opcode) then
    { s with program_counter := s.program_counter + 2 }
  else s

/-- Opcode family 0x6 (`set_reg`): `reg[x] = kk`. -/
def set_reg (s : Chip8) (opcode : Nat) : Chip8 :=
  setReg s (get_x opcode) (get_kk opcode)

/-- Opcode family 0x7 (`add_reg`): `reg[x] = reg[x].wrapping_add(kk)`,
written as addition `% 0x100`. -/
def add_reg (s : Chip8) (opcode : Nat) : Chip8 :=
  setReg s (get_x opcode) ((s.reg (get_x opcode) + get_kk opcode) % 0x100)

/-- Opcode family 0x8 (`reg_ops`), sub-dispatch on the low nibble.
Wrapping `u8` arithmetic is written with explicit `% 0x100` (for
`overflowing_sub` on values below 256, `a.wrapping_sub(b) = (a + 0x100 - b)
% 0x100`).  In sub-ops 6 and 0xE the source writes `reg[0xF]` first and
then reads `reg[x]` again for the shift, which matters when `x = 0xF`; the
embedding keeps that order.  Unknown sub-opcodes panic (`none`). -/
def reg_ops (s : Chip8) (opcode : Nat) : Option Chip8 :=
  let x := get_x opcode
  let y := get_y opcode
  match opcode % 0x10 with
  | 0x0 => some (setReg s x (s.reg y))
  | 0x1 => some (setReg s x (Nat.lor (s.reg x) (s.reg y)))
  | 0x2 => some (setReg s x (Nat.land (s.reg x) (s.reg y)))
  | 0x3 => some (setReg s x (Nat.xor (s.reg x) (s.reg y)))
  | 0x4 =>
      let result := (s.reg x + s.reg y) % 0x100
      let carry : Nat := if 0x100 ≤ s.reg x + s.reg y then 1 else 0
      some (setReg (setReg s x result) 0xF carry)
  | 0x5 =>
      let result := (s.reg x + 0x100 - s.reg y) % 0x100
      let notBorrow : Nat := if s.reg y ≤ s.reg x then 1 else 0
      some (setReg (setReg s x result) 0xF notBorrow)
  | 0x6 =>
      let s1 := setReg s 0xF (s.reg x % 2)
      some (setReg s1 x (s1.reg x / 2))
  | 0x7 =>
      let result := (s.reg y + 0x100 - s.reg x) % 0x100
      let notBorrow : Nat := if s.reg x ≤ s.reg y then 1 else 0
      some (setReg (setReg s x result) 0xF notBorrow)
  | 0xE =>
      let s1 := setReg s 0xF (s.reg x / 0x80)
      some (setReg s1 x (s1.reg x * 2 % 0x100))
  | _ => none

/-- Opcode family 0xA (`set_index`): index register becomes NNN. -/
def set_index (s : Chip8) (opcode : Nat) : Chip8 :=
  { s with index_reg := get_nnn opcode }

/-- Opcode family 0xB (`jp_offset`): program counter becomes NNN + reg[0]. -/
def jp_offset (s : Chip8) (opcode : Nat) : Chip8 :=
  { s with program_counter := get_nnn opcode + s.reg 0 }

/-- Opcode family 0xC (`rand`): `reg[x] = rng.gen::<u8>() & kk`; the RNG
draw reads the stream at the cursor and advances it. -/
def rand (s : Chip8) (opcode : Nat) : Chip8 :=
  { setReg s (get_x opcode) (Nat.land (s.rand_seq s.rand_pos % 0x100) (get_kk opcode)) with
    rand_pos := s.rand_pos + 1 }

/-- Inner loop of `display_sprite` over the column offsets `cols`
(`for i in 0..8`): extract bit `7 - i` of the sprite byte at `mem_index`,
XOR it onto the frame buffer at the current pixel (the running `pixel_x`
is a `u8`, so column `i` sits at `(reg_x + i) % 0x100`), and set `reg[0xF]`
to 1 whenever `xor_pixel` reports a collision. -/
def drawBits (st : Chip8) (mem_index px py : Nat) (cols : List Nat) : Chip8 :=
  cols.foldl (fun st' i =>
    let bit := (st'.memory mem_index >>> (7 - i)) % 2
    let r := xor_pixel st' ((px + i) % 0x100) py bit
    if r.2 then setReg r.1 0xF 1 else r.1) st

/-- Outer loop of `display_sprite` over the row offsets `rows`
(`for mem_index in index_reg..index_reg + bytes`): row `r` reads the
sprite byte at `base + r` and draws it at `pixel_y = (reg_y + r) % 0x100`
(the running `pixel_y` is a `u8`). -/
def drawRows (st : Chip8) (base reg_x reg_y : Nat) (rows : List Nat) : Chip8 :=
  rows.foldl (fun st' r =>
    drawBits st' (base + r) reg_x ((reg_y + r) % 0x100) (List.range 8)) st

/-- Opcode family 0xD (`display_sprite`): read the anchor from `reg[x]`,
`reg[y]`, clear `reg[0xF]`, then draw `bytes` rows of 8 pixels.  A sprite
read past `MEM_MAX` is an out-of-bounds array index in the source
(a panic), modelled as `none`; every theorem below stays inside the
in-bounds case.  `update_canvas` is a host callback with no engine
effect. -/
def display_sprite (s : Chip8) (opcode : Nat) : Option Chip8 :=
  let bytes := opcode % 0x10
  let reg_x := s.reg (get_x opcode)
  let reg_y := s.reg (get_y opcode)
  let s0 := setReg s 0xF 0
  if s.index_reg + bytes ≤ MEM_MAX then
    some (drawRows s0 s.index_reg reg_x reg_y (List.range bytes))
  else none

/-- Opcode family 0xE (`skip_if_key_state`): test `keys[reg[x]]`; the
source indexes the 16-entry `keys` array with the full `u8` value of
`reg[x]`, so a value of 16 or more panics (`none`). -/
def skip_if_key_state (s : Chip8) (opcode : Nat) : Option Chip8 :=
  let x := get_x opcode
  if opcode % 0x100 = 0x9E then
    if NUM_OF_KEYS ≤ s.reg x then none
    else some (if s.keys (s.reg x) = 1 then
      { s with program_counter := s.program_counter + 2 } else s)
  else if opcode % 0x100 = 0xA1 then
    if NUM_OF_KEYS ≤ s.reg x then none
    else some (if s.keys (s.reg x) = 0 then
      { s with program_counter := s.program_counter + 2 } else s)
  else none

/-- Host callback `wait_for_keypress(x)` (extern import; no-op in native
builds): it receives the register index but changes no engine state, so it
is the identity on the state. -/
def wait_for_keypress (s : Chip8) (_x : Nat) : Chip8 := s

/-- Opcode family 0xF (`misc`), sub-dispatch on the low byte.  `u16`
additions into `index_reg` wrap `% 0x10000`; memory writes and reads past
`MEM_MAX` are out-of-bounds panics (`none`).  Unknown sub-opcodes panic. -/
def misc (s : Chip8) (opcode : Nat) : Option Chip8 :=
  let x := get_x opcode
  match opcode % 0x100 with
  | 0x07 => some (setReg s x s.delay_timer)
  | 0x0A => some (wait_for_keypress s x)
  | 0x15 => some { s with delay_timer := s.reg x }
  | 0x18 => some { s with sound_timer := s.reg x }
  | 0x1E => some { s with index_reg := (s.index_reg + s.reg x) % 0x10000 }
  | 0x29 => some { s with index_reg := START_OF_FONT + s.reg x * 5 }
  | 0x33 =>
      if s.index_reg + 2 < MEM_MAX then
        some { s with memory := fun i =>
          if i = s.index_reg then s.reg x / 100
          else if i = s.index_reg + 1 then s.reg x / 10 % 10
          else if i = s.index_reg + 2 then s.reg x % 10
          else s.memory i }
      else none
  | 0x55 =>
      if s.index_reg + x < MEM_MAX then
        some { s with
          memory := fun i =>
            if s.index_reg ≤ i ∧ i ≤ s.index_reg + x then s.reg (i - s.index_reg)
            else s.memory i
          index_reg := (s.index_reg + (x + 1)) % 0x10000 }
      else none
  | 0x65 =>
      if s.index_reg + x < MEM_MAX then
        some { s with
          reg := fun j => if j ≤ x then s.memory (s.index_reg + j) else s.reg j
          index_reg := (s.index_reg + (x + 1)) % 0x10000 }
      else none
  | _ => none

/-- Dispatch `handle_opcode`: `match opcode & 0xF000`, written as a match
on the top nibble `opcode / 0x1000`.  All sixteen nibble values are
handled, so the source's top-level `_ => unhandled_opcode_panic` arm is
unreachable for a `u16` opcode. -/
def handle_opcode (s : Chip8) (opcode : Nat) : Option Chip8 :=
  match opcode / 0x1000 with
  | 0x0 => sys_addr s opcode
  | 0x1 => some (jp_addr s opcode)
  | 0x2 => some (call_addr s opcode)
  | 0x3 => some (skip_if_equal s opcode)
  | 0x4 => some (skip_if_not_equal s opcode)
  | 0x5 => some (skip_if_reg_equal s opcode)
  | 0x9 => some (skip_if_reg_not_equal s opcode)
  | 0x6 => some (set_reg s opcode)
  | 0x7 => some (add_reg s opcode)
  | 0x8 => reg_ops s opcode
  | 0xA => some (set_index s opcode)
  | 0xB => some (jp_offset s opcode)
  | 0xC => some (rand s opcode)
  | 0xD => display_sprite s opcode
  | 0xE => skip_if_key_state s opcode
  | 0xF => misc s opcode
  | _ => none

/-- Fetch-advance-dispatch (`execute_instructions`): read two bytes at the
program counter (`(memory[pc] as u16) << 8 | memory[pc + 1]`, which for
byte values is `memory[pc] * 0x100 + memory[pc + 1]`), advance the counter
by 2, then dispatch.  Reading at `pc + 1 ≥ MEM_MAX` is an out-of-bounds
panic (`none`). -/
def execute_instructions (s : Chip8) : Option Chip8 :=
  if s.program_counter + 1 < MEM_MAX then
    let opcode := s.memory s.program_counter * 0x100 + s.memory (s.program_counter + 1)
    handle_opcode { s with program_counter := s.program_counter + 2 } opcode
  else none

/-- Entry point `tick`: one fetch-decode-execute cycle, then decrement the
delay timer when positive.  The corresponding sound-timer decrement is
commented out in the source, so `sound_timer` is left untouched here. -/
def tick (s : Chip8) : Option Chip8 :=
  (execute_instructions s).map fun s1 =>
    if 0 < s1.delay_timer then { s1 with delay_timer := s1.delay_timer - 1 } else s1

/-- Accessor `get_registers`: returns (a pointer to) the register file. -/
def get_registers (s : Chip8) : Nat → Nat := s.reg

/-- Accessor `get_keys`: the source returns `self.reg.as_ptr()` — the
register file, not the `keys` array. -/
def get_keys (s : Chip8) : Nat → Nat := s.reg

/-- Sprite bit `7 - c` (most-significant bit leftmost) of byte `B`:
`(B >> (7 - i)) & 1` in the source. -/
def bitAt (B c : Nat) : Nat := (B >>> (7 - c)) % 2

/-- Frame-buffer index written by `xor_pixel` for column `c` of a row
anchored at `px` (a `u8`, hence the `% 0x100`) and drawn at vertical
coordinate `py`: `wrapped_y * FRAME_BUF_WIDTH + wrapped_x`. -/
def colIdx (px py c : Nat) : Nat := py % 32 * 64 + (px + c) % 0x100 % 64

/-- All-zero entropy stream, used to instantiate `chip8_new` in concrete
states (no claim below depends on the RNG). -/
def zeroStream : Nat → Nat := fun _ => 0

/-- Concrete state for the timer check: fresh engine with the clear-display
instruction 0x00E0 loaded at 0x200 and both timers at 5. -/
def timerState : Chip8 :=
  { chip8_new zeroStream with
    memory := fun i => if i = 0x201 then 0xE0 else (chip8_new zeroStream).memory i
    delay_timer := 5
    sound_timer := 5 }

/-- Concrete state for the key-wait check: fresh engine (no key pressed)
with `F00A` (wait for key into V0) at 0x200 followed by `6105`
(V1 := 5) at 0x202. -/
def waitState : Chip8 :=
  { chip8_new zeroStream with
    memory := fun i =>
      if i = 0x200 then 0xF0 else if i = 0x201 then 0x0A
      else if i = 0x202 then 0x61 else if i = 0x203 then 0x05
      else (chip8_new zeroStream).memory i }

/-- Concrete state for the draw witness: fresh engine with the index
register pointing at the font table. -/
def c1state : Chip8 := { chip8_new zeroStream with index_reg := 0x50 }

/-- Concrete state for the ALU witness: fresh engine with V2 = 200 and
V3 = 100. -/
def c2state : Chip8 := setReg (setReg (chip8_new zeroStream) 2 200) 3 100

/-- Concrete state for the call check: fresh engine whose call stack
already holds 16 return addresses. -/
def deepStackState : Chip8 :=
  { chip8_new zeroStream with stack := List.replicate 16 0x300 }

/-- Concrete state for the call/return witness: fresh engine with
`2208` (call 0x208) at 0x200. -/
def callState : Chip8 :=
  { chip8_new zeroStream with
    memory := fun i =>
      if i = 0x200 then 0x22 else if i = 0x201 then 0x08
      else (chip8_new zeroStream).memory i }

/-- Concrete state for the call/return witness: engine at 0x208 with
`00EE` (return) loaded there and the return address 0x202 on the stack. -/
def retState : Chip8 :=
  { chip8_new zeroStream with
    stack := [0x202]
    program_counter := 0x208
    memory := fun i => if i = 0x209 then 0xEE else (chip8_new zeroStream).memory i }

end Chip8Core

open Chip8Core

/-- C10: for every engine state, `get_keys` returns the same view as
`get_registers` — the sixteen general-purpose registers — and not the
16-entry key-state array, so key states are not observable through
`get_keys`. -/
theorem get_keys_is_registers_view :
    (∀ s : Chip8, get_keys s = get_registers s ∧ get_keys s = s.reg) ∧
    (∃ s : Chip8, get_keys s ≠ s.keys) := by
  refine ⟨fun s => ⟨rfl, rfl⟩, ⟨{ chip8_new zeroStream with keys := fun _ => 1 }, ?_⟩⟩
  intro h
  have h0 := congrFun h 0
  simp [get_keys, chip8_new] at h0

/-- C4, counterexample: an unrecognized sub-opcode (0x800F, and likewise a
fetched 0x800F via `tick`) makes the engine panic — modelled as `none`,
i.e. no successor state — instead of producing a recoverable
`InvalidOpcode` outcome. -/
theorem invalid_opcode_abort_cex :
    handle_opcode (chip8_new zeroStream) 0x800F = none ∧
    tick { chip8_new zeroStream with
      memory := fun i => if i = 0x200 then 0x80 else if i = 0x201 then 0x0F else 0 } = none :=
  ⟨rfl, rfl⟩

/-- C4, amended: for every engine state and every instruction word, the
top-level dispatch is total — each of the 16 top nibbles routes to its
family handler, so no top-level unrecognized opcode exists for a 16-bit
word — and within the four sub-dispatching families every unrecognized
nested sub-opcode (0x0 family words other than 00E0/00EE; 0x8 family low
nibble outside 0..7 and 0xE; 0xE family low byte other than 9E/A1; 0xF
family low byte outside the nine handled values) reaches
`unhandled_opcode_panic`, which logs and aborts the process (modelled as
`none`): no recoverable reported `InvalidOpcode` outcome exists. -/
theorem invalid_subopcode_aborts (s : Chip8) (op : Nat) :
    (op / 0x1000 = 0x0 → handle_opcode s op = sys_addr s op) ∧
    (op / 0x1000 = 0x1 → handle_opcode s op = some (jp_addr s op)) ∧
    (op / 0x1000 = 0x2 → handle_opcode s op = some (call_addr s op)) ∧
    (op / 0x1000 = 0x3 → handle_opcode s op = some (skip_if_equal s op)) ∧
    (op / 0x1000 = 0x4 → handle_opcode s op = some (skip_if_not_equal s op)) ∧
    (op / 0x1000 = 0x5 → handle_opcode s op = some (skip_if_reg_equal s op)) ∧
    (op / 0x1000 = 0x6 → handle_opcode s op = some (set_reg s op)) ∧
    (op / 0x1000 = 0x7 → handle_opcode s op = some (add_reg s op)) ∧
    (op / 0x1000 = 0x8 → handle_opcode s op = reg_ops s op) ∧
    (op / 0x1000 = 0x9 → handle_opcode s op = some (skip_if_reg_not_equal s op)) ∧
    (op / 0x1000 = 0xA → handle_opcode s op = some (set_index s op)) ∧
    (op / 0x1000 = 0xB → handle_opcode s op = some (jp_offset s op)) ∧
    (op / 0x1000 = 0xC → handle_opcode s op = some (rand s op)) ∧
    (op / 0x1000 = 0xD → handle_opcode s op = display_sprite s op) ∧
    (op / 0x1000 = 0xE → handle_opcode s op = skip_if_key_state s op) ∧
    (op / 0x1000 = 0xF → handle_opcode s op = misc s op) ∧
    (op / 0x1000 = 0x0 → op ≠ 0x00E0 → op ≠ 0x00EE → handle_opcode s op = none) ∧
    (op / 0x1000 = 0x8 → 8 ≤ op % 0x10 → op % 0x10 ≠ 0xE → handle_opcode s op = none) ∧
    (op / 0x1000 = 0xE → op % 0x100 ≠ 0x9E → op % 0x100 ≠ 0xA1 →
      handle_opcode s op = none) ∧
    (op / 0x1000 = 0xF → op % 0x100 ≠ 0x07 → op % 0x100 ≠ 0x0A → op % 0x100 ≠ 0x15 →
      op % 0x100 ≠ 0x18 → op % 0x100 ≠ 0x1E → op % 0x100 ≠ 0x29 → op % 0x100 ≠ 0x33 →
      op % 0x100 ≠ 0x55 → op % 0x100 ≠ 0x65 → handle_opcode s op = none) := by
  refine ⟨?_, ?_, ?_, ?_, ?_, ?_, ?_, ?_, ?_, ?_, ?_, ?_, ?_, ?_, ?_, ?_, ?_, ?_, ?_, ?_⟩
  · intro h; unfold handle_opcode; rw [h]
  · intro h; unfold handle_opcode; rw [h]
  · intro h; unfold handle_opcode; rw [h]
  · intro h; unfold handle_opcode; rw [h]
  · intro h; unfold handle_opcode; rw [h]
  · intro h; unfold handle_opcode; rw [h]
  · intro h; unfold handle_opcode; rw [h]
  · intro h; unfold handle_opcode; rw [h]
  · intro h; unfold handle_opcode; rw [h]
  · intro h; unfold handle_opcode; rw [h]
  · intro h; unfold handle_opcode; rw [h]
  · intro h; unfold handle_opcode; rw [h]
  · intro h; unfold handle_opcode; rw [h]
  · intro h; unfold handle_opcode; rw [h]
  · intro h; unfold handle_opcode; rw [h]
  · intro h; unfold handle_opcode; rw [h]
  · intro h h1 h2
    have hd : handle_opcode s op = sys_addr s op := by unfold handle_opcode; rw [h]
    rw [hd]
    unfold sys_addr
    split
    · exact absurd rfl h1
    · exact absurd rfl h2
    · rfl
  · intro h h8 hE
    have hd : handle_opcode s op = reg_ops s op := by unfold handle_opcode; rw [h]
    rw [hd]
    unfold reg_ops
    split <;> first | rfl | omega
  · intro h h1 h2
    have hd : handle_opcode s op = skip_if_key_state s op := by unfold handle_opcode; rw [h]
    rw [hd]
    unfold skip_if_key_state
    rw [if_neg h1, if_neg h2]
  · intro h h07 h0A h15 h18 h1E h29 h33 h55 h65
    have hd : handle_opcode s op = misc s op := by unfold handle_opcode; rw [h]
    rw [hd]
    unfold misc
    split <;> first | rfl | omega

/-- Witness for the amended C4 theorem: a representative of each
sub-dispatching family's panic arm, and one total-dispatch equation. -/
theorem invalid_subopcode_aborts_witness :
    handle_opcode (chip8_new zeroStream) 0x0123 = none ∧
    handle_opcode (chip8_new zeroStream) 0x800F = none ∧
    handle_opcode (chip8_new zeroStream) 0xE0FF = none ∧
    handle_opcode (chip8_new zeroStream) 0xF0FF = none ∧
    handle_opcode (chip8_new zeroStream) 0x1ABC =
      some (jp_addr (chip8_new zeroStream) 0x1ABC) := by
  refine ⟨?_, ?_, ?_, ?_, ?_⟩
  · obtain ⟨-, -, -, -, -, -, -, -, -, -, -, -, -, -, -, -, c0, -, -, -⟩ :=
      invalid_subopcode_aborts (chip8_new zeroStream) 0x0123
    exact c0 (by decide) (by decide) (by decide)
  · obtain ⟨-, -, -, -, -, -, -, -, -, -, -, -, -, -, -, -, -, c8, -, -⟩ :=
      invalid_subopcode_aborts (chip8_new zeroStream) 0x800F
    exact c8 (by decide) (by decide) (by decide)
  · obtain ⟨-, -, -, -, -, -, -, -, -, -, -, -, -, -, -, -, -, -, cE, -⟩ :=
      invalid_subopcode_aborts (chip8_new zeroStream) 0xE0FF
    exact cE (by decide) (by decide) (by decide)
  · obtain ⟨-, -, -, -, -, -, -, -, -, -, -, -, -, -, -, -, -, -, -, cF⟩ :=
      invalid_subopcode_aborts (chip8_new zeroStream) 0xF0FF
    exact cF (by decide) (by decide) (by decide) (by decide) (by decide) (by decide)
      (by decide) (by decide) (by decide) (by decide)
  · obtain ⟨-, c1, -, -, -, -, -, -, -, -, -, -, -, -, -, -, -, -, -, -⟩ :=
      invalid_subopcode_aborts (chip8_new zeroStream) 0x1ABC
    exact c1 (by decide)

/-- C3: on a fresh engine with both timers at 5 and a clear-display
instruction at 0x200, `tick` decrements the delay timer to 4 but leaves
the sound timer at 5 (its decrement is commented out in the source),
contradicting the claim that both timers decrement identically. -/
theorem sound_timer_unchanged_on_tick :
    (tick timerState).map (fun s => (s.delay_timer, s.sound_timer)) = some (4, 5) := rfl

/-- C5: the claim fails because `reset` does not touch the register file:
after setting V1 := 5 (instruction 0x6105) on a fresh engine, `reset`
leaves V1 = 5, whereas a freshly constructed engine has V1 = 0. -/
theorem reset_preserves_registers_bug :
    ∃ s1, handle_opcode (chip8_new zeroStream) 0x6105 = some s1 ∧
      (reset s1).reg 1 = 5 ∧ (chip8_new zeroStream).reg 1 = 0 :=
  ⟨set_reg (chip8_new zeroStream) 0x6105, rfl, rfl, rfl⟩

/-- C6: the font table installed by `new` is 50 bytes (digits 0 through 9
only), not 80; `Fx29` with Vx = 0xA sets the index register to
0x50 + 5 * 0xA = 0x82, but memory there is all zeroes on a fresh engine —
there is no glyph for the digits A through F. -/
theorem font_table_missing_high_digits :
    font_data.length = 50 ∧
    (∃ s', handle_opcode (setReg (chip8_new zeroStream) 0 0xA) 0xF029 = some s' ∧
      s'.index_reg = 0x82) ∧
    (chip8_new zeroStream).memory 0x50 = 0xF0 ∧
    (chip8_new zeroStream).memory 0x81 = 0xF0 ∧
    (chip8_new zeroStream).memory 0x82 = 0 ∧
    (chip8_new zeroStream).memory 0x83 = 0 ∧
    (chip8_new zeroStream).memory 0x84 = 0 ∧
    (chip8_new zeroStream).memory 0x85 = 0 ∧
    (chip8_new zeroStream).memory 0x86 = 0 := by
  refine ⟨rfl, ⟨_, rfl, rfl⟩, ?_, ?_, ?_, ?_, ?_, ?_, ?_⟩ <;> decide

/-- C7, counterexample: with the call stack already 16 entries deep (the
depth of real CHIP-8 hardware), the call instruction 0x2ABC still pushes —
the stack grows to 17 and the program counter jumps to 0xABC; no
`StackOverflow` is reported at any configured depth because the source
pushes unconditionally onto a growable `Vec`. -/
theorem call_at_depth16_pushes :
    (call_addr deepStackState 0x2ABC).stack.length = 17 ∧
    (call_addr deepStackState 0x2ABC).program_counter = 0xABC :=
  ⟨rfl, rfl⟩

/-- Fetch lemma: with the fetch in bounds, `execute_instructions` advances
the program counter by 2 and dispatches the fetched word. -/
theorem execute_instructions_eq (s : Chip8) (h : s.program_counter + 1 < MEM_MAX) :
    execute_instructions s =
      handle_opcode { s with program_counter := s.program_counter + 2 }
        (s.memory s.program_counter * 0x100 + s.memory (s.program_counter + 1)) := by
  unfold execute_instructions
  rw [if_pos h]

/-- Dispatch lemma for the 0x2 family. -/
theorem handle_opcode_call_eq (s : Chip8) (op : Nat) (h : op / 0x1000 = 0x2) :
    handle_opcode s op = some (call_addr s op) := by
  unfold handle_opcode; rw [h]

/-- Executing a fetched call instruction `2NNN` (high byte `hi`, low byte
`lo`) through `tick`: the already-advanced program counter is pushed and
the program counter becomes NNN; no failure is possible at any stack
depth. -/
theorem tick_call (s : Chip8) (hi lo : Nat)
    (hpc : s.program_counter + 1 < MEM_MAX)
    (hhi : s.memory s.program_counter = hi)
    (hlo : s.memory (s.program_counter + 1) = lo)
    (hfam : hi / 0x10 = 0x2) (hlo8 : lo < 0x100) :
    ∃ s1, tick s = some s1 ∧
      s1.stack = (s.program_counter + 2) :: s.stack ∧
      s1.program_counter = hi % 0x10 * 0x100 + lo := by
  have hdiv : (hi * 0x100 + lo) / 0x1000 = 0x2 := by omega
  have hnnn : get_nnn (hi * 0x100 + lo) = hi % 0x10 * 0x100 + lo := by
    unfold get_nnn; omega
  unfold tick
  rw [execute_instructions_eq s hpc, hhi, hlo, handle_opcode_call_eq _ _ hdiv]
  refine ⟨_, rfl, ?_, ?_⟩ <;>
    · unfold call_addr
      dsimp only
      split <;> simp [hnnn]

/-- Executing a fetched return instruction `00EE` through `tick`: the top
of the stack is popped into the program counter. -/
theorem tick_ret (s : Chip8) (a : Nat) (rest : List Nat)
    (hpc : s.program_counter + 1 < MEM_MAX)
    (hhi : s.memory s.program_counter = 0x00)
    (hlo : s.memory (s.program_counter + 1) = 0xEE)
    (hstk : s.stack = a :: rest) :
    ∃ s3, tick s = some s3 ∧ s3.program_counter = a ∧ s3.stack = rest := by
  unfold tick
  rw [execute_instructions_eq s hpc, hhi, hlo]
  norm_num
  unfold handle_opcode sys_addr
  norm_num
  rw [show ({ s with program_counter := s.program_counter + 2 } : Chip8).stack = a :: rest
    from hstk]
  refine ⟨_, rfl, ?_, ?_⟩ <;> (dsimp only; split <;> rfl)

/-- C9, counterexample: on a fresh engine with no key pressed and `F00A`
(wait for key) at 0x200 followed by `6105` at 0x202, the first `tick`
advances the program counter past the wait instruction to 0x202 and the
second `tick` executes the following instruction (V1 becomes 5): there is
no engine-internal waiting state and repeated ticks keep making
progress. -/
theorem wait_key_no_wait_state_cex :
    ((tick waitState).bind tick).map (fun s => (s.program_counter, s.reg 1)) =
      some (0x204, 5) ∧
    (tick waitState).map (fun s => s.program_counter) = some 0x202 ∧
    waitState.keys 0 = 0 :=
  ⟨rfl, rfl, rfl⟩

/-- C7, amended: a call instruction `2NNN` fetched by `tick` always
pushes the current (already-advanced) program counter onto the stack and
sets the program counter to NNN; the stack is an unbounded growable
vector, so this holds at every depth and no `StackOverflow` condition is
ever reported. -/
theorem call_pushes_and_jumps (s : Chip8) (hi lo : Nat)
    (hpc : s.program_counter + 1 < MEM_MAX)
    (hhi : s.memory s.program_counter = hi)
    (hlo : s.memory (s.program_counter + 1) = lo)
    (hfam : hi / 0x10 = 0x2) (hlo8 : lo < 0x100) :
    ∃ s1, tick s = some s1 ∧
      s1.stack = (s.program_counter + 2) :: s.stack ∧
      s1.program_counter = hi % 0x10 * 0x100 + lo :=
  tick_call s hi lo hpc hhi hlo hfam hlo8

/-- Witness for the amended C7 theorem at the concrete state `callState`
(call 0x208 located at 0x200). -/
theorem call_pushes_and_jumps_witness :
    (callState.program_counter + 1 < MEM_MAX ∧
      callState.memory callState.program_counter = 0x22 ∧
      callState.memory (callState.program_counter + 1) = 0x08 ∧
      (0x22 : Nat) / 0x10 = 0x2 ∧ (0x08 : Nat) < 0x100) ∧
    ∃ s1, tick callState = some s1 ∧
      s1.stack = (callState.program_counter + 2) :: callState.stack ∧
      s1.program_counter = 0x22 % 0x10 * 0x100 + 0x08 :=
  ⟨⟨by decide, by decide, by decide, by decide, by decide⟩,
    call_pushes_and_jumps callState 0x22 0x08 (by decide) (by decide) (by decide)
      (by decide) (by decide)⟩

/-- C8: when a call instruction at address A (= the program counter of
`s`) is fetched and executed by `tick`, and later — with the stack exactly
as the call left it, i.e. no intervening stack operations — the matching
return `00EE` is fetched and executed by `tick`, the return sets the
program counter to exactly A + 2 and restores the stack to exactly its
depth and contents before the call. -/
theorem call_then_return_roundtrip (s s2 : Chip8) (hi lo : Nat)
    (hpc : s.program_counter + 1 < MEM_MAX)
    (hhi : s.memory s.program_counter = hi)
    (hlo : s.memory (s.program_counter + 1) = lo)
    (hfam : hi / 0x10 = 0x2) (hlo8 : lo < 0x100)
    (hstk2 : s2.stack = (s.program_counter + 2) :: s.stack)
    (hpc2 : s2.program_counter + 1 < MEM_MAX)
    (hret_hi : s2.memory s2.program_counter = 0x00)
    (hret_lo : s2.memory (s2.program_counter + 1) = 0xEE) :
    (∃ s1, tick s = some s1 ∧
      s1.stack = (s.program_counter + 2) :: s.stack ∧
      s1.program_counter = hi % 0x10 * 0x100 + lo) ∧
    (∃ s3, tick s2 = some s3 ∧
      s3.program_counter = s.program_counter + 2 ∧ s3.stack = s.stack) :=
  ⟨tick_call s hi lo hpc hhi hlo hfam hlo8,
    tick_ret s2 (s.program_counter + 2) s.stack hpc2 hret_hi hret_lo hstk2⟩

/-- Witness for C8 at the concrete states `callState` (call 0x208 at
0x200) and `retState` (return at 0x208 with 0x202 on the stack). -/
theorem call_then_return_roundtrip_witness :
    (callState.program_counter + 1 < MEM_MAX ∧
      callState.memory callState.program_counter = 0x22 ∧
      callState.memory (callState.program_counter + 1) = 0x08 ∧
      (0x22 : Nat) / 0x10 = 0x2 ∧ (0x08 : Nat) < 0x100 ∧
      retState.stack = (callState.program_counter + 2) :: callState.stack ∧
      retState.program_counter + 1 < MEM_MAX ∧
      retState.memory retState.program_counter = 0x00 ∧
      retState.memory (retState.program_counter + 1) = 0xEE) ∧
    ((∃ s1, tick callState = some s1 ∧
      s1.stack = (callState.program_counter + 2) :: callState.stack ∧
      s1.program_counter = 0x22 % 0x10 * 0x100 + 0x08) ∧
    (∃ s3, tick retState = some s3 ∧
      s3.program_counter = callState.program_counter + 2 ∧
      s3.stack = callState.stack)) :=
  ⟨⟨by decide, by decide, by decide, by decide, by decide, by decide, by decide,
    by decide, by decide⟩,
    call_then_return_roundtrip callState retState 0x22 0x08 (by decide) (by decide)
      (by decide) (by decide) (by decide) (by decide) (by decide) (by decide) (by decide)⟩

/-- C9, amended: the wait-for-key instruction `Fx0A` hands the register
index to the host callback `wait_for_keypress` and leaves every part of
the engine state unchanged; the engine records no waiting state, so the
already-advanced program counter stays past the instruction and later
ticks keep executing regardless of key state. -/
theorem wait_key_host_callback_identity (s : Chip8) (op : Nat)
    (hfam : op / 0x1000 = 0xF) (hsub : op % 0x100 = 0x0A) :
    handle_opcode s op = some s := by
  unfold handle_opcode
  rw [hfam]
  unfold misc
  rw [hsub]
  rfl

/-- C2: semantics of the ALU family on an encoded instruction
`8XYk = 0x8000 + x*0x100 + y*0x10 + k` for register indices `x ≠ 0xF`
(when `x = 0xF` the flag write clobbers the result slot) with byte-valued
operands.  ADD stores `(Vx+Vy) mod 256` and sets VF to 1 iff the unsigned
sum is at least 256; SUB stores `(Vx-Vy) mod 256` with VF = 1 iff
`Vy ≤ Vx`; SUBN stores `(Vy-Vx) mod 256` with VF = 1 iff `Vx ≤ Vy`; SHR
sets VF to the pre-shift least-significant bit and stores `Vx >> 1`; SHL
sets VF to the pre-shift most-significant bit and stores
`(Vx << 1) mod 256`. -/
theorem alu_ops_correct (s : Chip8) (x y : Nat)
    (hx : x < 16) (hy : y < 16) (hxF : x ≠ 0xF)
    (ha : s.reg x < 0x100) (hb : s.reg y < 0x100) :
    (∃ s4, reg_ops s (0x8000 + x * 0x100 + y * 0x10 + 0x4) = some s4 ∧
      (s4.reg x : ℤ) = ((s.reg x : ℤ) + (s.reg y : ℤ)) % 256 ∧
      s4.reg 0xF = if 0x100 ≤ s.reg x + s.reg y then 1 else 0) ∧
    (∃ s5, reg_ops s (0x8000 + x * 0x100 + y * 0x10 + 0x5) = some s5 ∧
      (s5.reg x : ℤ) = ((s.reg x : ℤ) - (s.reg y : ℤ)) % 256 ∧
      s5.reg 0xF = if s.reg y ≤ s.reg x then 1 else 0) ∧
    (∃ s7, reg_ops s (0x8000 + x * 0x100 + y * 0x10 + 0x7) = some s7 ∧
      (s7.reg x : ℤ) = ((s.reg y : ℤ) - (s.reg x : ℤ)) % 256 ∧
      s7.reg 0xF = if s.reg x ≤ s.reg y then 1 else 0) ∧
    (∃ s6, reg_ops s (0x8000 + x * 0x100 + y * 0x10 + 0x6) = some s6 ∧
      s6.reg x = s.reg x / 2 ∧ s6.reg 0xF = s.reg x % 2) ∧
    (∃ sE, reg_ops s (0x8000 + x * 0x100 + y * 0x10 + 0xE) = some sE ∧
      (sE.reg x : ℤ) = ((s.reg x : ℤ) * 2) % 256 ∧ sE.reg 0xF = s.reg x / 0x80) := by
  have hm : ∀ k, k < 0x10 → (0x8000 + x * 0x100 + y * 0x10 + k) % 0x10 = k := by
    intro k hk; omega
  have hgx : ∀ k, k < 0x10 → get_x (0x8000 + x * 0x100 + y * 0x10 + k) = x := by
    intro k hk; unfold get_x; omega
  have hgy : ∀ k, k < 0x10 → get_y (0x8000 + x * 0x100 + y * 0x10 + k) = y := by
    intro k hk; unfold get_y; omega
  have hFx : ¬ ((0xF : Nat) = x) := fun h => hxF h.symm
  refine ⟨?_, ?_, ?_, ?_, ?_⟩
  · -- 8XY4
    have e : reg_ops s (0x8000 + x * 0x100 + y * 0x10 + 0x4) =
        some (setReg (setReg s x ((s.reg x + s.reg y) % 0x100)) 0xF
          (if 0x100 ≤ s.reg x + s.reg y then 1 else 0)) := by
      unfold reg_ops
      rw [hm 0x4 (by norm_num), hgx 0x4 (by norm_num), hgy 0x4 (by norm_num)]
    refine ⟨_, e, ?_, ?_⟩
    · have hr : (setReg (setReg s x ((s.reg x + s.reg y) % 0x100)) 0xF
          (if 0x100 ≤ s.reg x + s.reg y then 1 else 0)).reg x =
          (s.reg x + s.reg y) % 0x100 := by
        simp [setReg, hxF]
      rw [hr]; omega
    · simp [setReg]
  · -- 8XY5
    have e : reg_ops s (0x8000 + x * 0x100 + y * 0x10 + 0x5) =
        some (setReg (setReg s x ((s.reg x + 0x100 - s.reg y) % 0x100)) 0xF
          (if s.reg y ≤ s.reg x then 1 else 0)) := by
      unfold reg_ops
      rw [hm 0x5 (by norm_num), hgx 0x5 (by norm_num), hgy 0x5 (by norm_num)]
    refine ⟨_, e, ?_, ?_⟩
    · have hr : (setReg (setReg s x ((s.reg x + 0x100 - s.reg y) % 0x100)) 0xF
          (if s.reg y ≤ s.reg x then 1 else 0)).reg x =
          (s.reg x + 0x100 - s.reg y) % 0x100 := by
        simp [setReg, hxF]
      rw [hr]; omega
    · simp [setReg]
  · -- 8XY7
    have e : reg_ops s (0x8000 + x * 0x100 + y * 0x10 + 0x7) =
        some (setReg (setReg s x ((s.reg y + 0x100 - s.reg x) % 0x100)) 0xF
          (if s.reg x ≤ s.reg y then 1 else 0)) := by
      unfold reg_ops
      rw [hm 0x7 (by norm_num), hgx 0x7 (by norm_num), hgy 0x7 (by norm_num)]
    refine ⟨_, e, ?_, ?_⟩
    · have hr : (setReg (setReg s x ((s.reg y + 0x100 - s.reg x) % 0x100)) 0xF
          (if s.reg x ≤ s.reg y then 1 else 0)).reg x =
          (s.reg y + 0x100 - s.reg x) % 0x100 := by
        simp [setReg, hxF]
      rw [hr]; omega
    · simp [setReg]
  · -- 8XY6
    have e : reg_ops s (0x8000 + x * 0x100 + y * 0x10 + 0x6) =
        some (setReg (setReg s 0xF (s.reg x % 2)) x
          ((setReg s 0xF (s.reg x % 2)).reg x / 2)) := by
      unfold reg_ops
      rw [hm 0x6 (by norm_num), hgx 0x6 (by norm_num), hgy 0x6 (by norm_num)]
    refine ⟨_, e, ?_, ?_⟩
    · simp [setReg, hxF]
    · simp [setReg, hxF, hFx]
  · -- 8XYE
    have e : reg_ops s (0x8000 + x * 0x100 + y * 0x10 + 0xE) =
        some (setReg (setReg s 0xF (s.reg x / 0x80)) x
          ((setReg s 0xF (s.reg x / 0x80)).reg x * 2 % 0x100)) := by
      unfold reg_ops
      rw [hm 0xE (by norm_num), hgx 0xE (by norm_num), hgy 0xE (by norm_num)]
    refine ⟨_, e, ?_, ?_⟩
    · have hr : (setReg (setReg s 0xF (s.reg x / 0x80)) x
          ((setReg s 0xF (s.reg x / 0x80)).reg x * 2 % 0x100)).reg x =
          s.reg x * 2 % 0x100 := by
        simp [setReg, hxF]
      rw [hr]; omega
    · simp [setReg, hxF, hFx]

/-- Witness for C2 at the concrete state `c2state` (V2 = 200, V3 = 100),
x = 2, y = 3. -/
theorem alu_ops_correct_witness :
    ((2 : Nat) < 16 ∧ (3 : Nat) < 16 ∧ (2 : Nat) ≠ 0xF ∧
      c2state.reg 2 < 0x100 ∧ c2state.reg 3 < 0x100) ∧
    ((∃ s4, reg_ops c2state (0x8000 + 2 * 0x100 + 3 * 0x10 + 0x4) = some s4 ∧
      (s4.reg 2 : ℤ) = ((c2state.reg 2 : ℤ) + (c2state.reg 3 : ℤ)) % 256 ∧
      s4.reg 0xF = if 0x100 ≤ c2state.reg 2 + c2state.reg 3 then 1 else 0) ∧
    (∃ s5, reg_ops c2state (0x8000 + 2 * 0x100 + 3 * 0x10 + 0x5) = some s5 ∧
      (s5.reg 2 : ℤ) = ((c2state.reg 2 : ℤ) - (c2state.reg 3 : ℤ)) % 256 ∧
      s5.reg 0xF = if c2state.reg 3 ≤ c2state.reg 2 then 1 else 0) ∧
    (∃ s7, reg_ops c2state (0x8000 + 2 * 0x100 + 3 * 0x10 + 0x7) = some s7 ∧
      (s7.reg 2 : ℤ) = ((c2state.reg 3 : ℤ) - (c2state.reg 2 : ℤ)) % 256 ∧
      s7.reg 0xF = if c2state.reg 2 ≤ c2state.reg 3 then 1 else 0) ∧
    (∃ s6, reg_ops c2state (0x8000 + 2 * 0x100 + 3 * 0x10 + 0x6) = some s6 ∧
      s6.reg 2 = c2state.reg 2 / 2 ∧ s6.reg 0xF = c2state.reg 2 % 2) ∧
    (∃ sE, reg_ops c2state (0x8000 + 2 * 0x100 + 3 * 0x10 + 0xE) = some sE ∧
      (sE.reg 2 : ℤ) = ((c2state.reg 2 : ℤ) * 2) % 256 ∧
      sE.reg 0xF = c2state.reg 2 / 0x80)) :=
  ⟨⟨by decide, by decide, by decide, by decide, by decide⟩,
    alu_ops_correct c2state 2 3 (by decide) (by decide) (by decide)
      (by decide) (by decide)⟩

/-- Witness for the amended C9 theorem: opcode 0xF00A on a fresh engine. -/
theorem wait_key_host_callback_identity_witness :
    ((0xF00A : Nat) / 0x1000 = 0xF ∧ (0xF00A : Nat) % 0x100 = 0x0A) ∧
    handle_opcode (chip8_new zeroStream) 0xF00A = some (chip8_new zeroStream) :=
  ⟨⟨by decide, by decide⟩,
    wait_key_host_callback_identity (chip8_new zeroStream) 0xF00A (by decide) (by decide)⟩

/-- XOR of two pixel values stays a pixel value. -/
theorem xor_le_one (a v : Nat) (ha : a ≤ 1) (hv : v ≤ 1) : Nat.xor a v ≤ 1 := by
  interval_cases a <;> interval_cases v <;> decide

/-- Sprite bits are pixel values. -/
theorem bitAt_le_one (B c : Nat) : bitAt B c ≤ 1 := by
  unfold bitAt; omega

/-- Collision test of `xor_pixel` on pixel values: a set pixel becomes
clear exactly when the pixel was set and the sprite bit is 1. -/
theorem collision_flag_iff (a v : Nat) (ha : a ≤ 1) (hv : v ≤ 1) :
    ((a == 1) && (Nat.xor a v == 0)) = true ↔ a = 1 ∧ v = 1 := by
  interval_cases a <;> interval_cases v <;> decide

/-- Unfolding equation for one step of the inner draw loop. -/
theorem drawBits_cons_eq (st : Chip8) (mem_index px py c : Nat) (rest : List Nat) :
    drawBits st mem_index px py (c :: rest) =
      drawBits
        (if (xor_pixel st ((px + c) % 0x100) py (bitAt (st.memory mem_index) c)).2 then
          setReg (xor_pixel st ((px + c) % 0x100) py (bitAt (st.memory mem_index) c)).1 0xF 1
         else (xor_pixel st ((px + c) % 0x100) py (bitAt (st.memory mem_index) c)).1)
        mem_index px py rest := by
  unfold drawBits
  rw [List.foldl_cons]
  rfl

/-- Effect of one step of the inner draw loop: the frame buffer is XORed
at `colIdx px py c`, registers other than VF are untouched, and VF becomes
1 exactly on a set-to-clear transition (otherwise it is unchanged). -/
theorem drawBits_step (st : Chip8) (mem_index px py c : Nat) (rest : List Nat)
    (ha : st.frame_buffer (colIdx px py c) ≤ 1) :
    ∃ st1 : Chip8,
      drawBits st mem_index px py (c :: rest) = drawBits st1 mem_index px py rest ∧
      st1.memory = st.memory ∧
      st1.frame_buffer = (fun i => if i = colIdx px py c then
          Nat.xor (st.frame_buffer (colIdx px py c)) (bitAt (st.memory mem_index) c)
        else st.frame_buffer i) ∧
      (∀ j, j ≠ 0xF → st1.reg j = st.reg j) ∧
      st1.reg 0xF = (if st.frame_buffer (colIdx px py c) = 1 ∧
          bitAt (st.memory mem_index) c = 1 then 1 else st.reg 0xF) := by
  have hiff := collision_flag_iff (st.frame_buffer (colIdx px py c))
      (bitAt (st.memory mem_index) c) ha (bitAt_le_one _ _)
  have hsnd : (xor_pixel st ((px + c) % 0x100) py (bitAt (st.memory mem_index) c)).2 =
      ((st.frame_buffer (colIdx px py c) == 1) &&
        (Nat.xor (st.frame_buffer (colIdx px py c)) (bitAt (st.memory mem_index) c) == 0)) :=
    rfl
  cases hcoll : (xor_pixel st ((px + c) % 0x100) py (bitAt (st.memory mem_index) c)).2 with
  | false =>
      refine ⟨(xor_pixel st ((px + c) % 0x100) py (bitAt (st.memory mem_index) c)).1,
        ?_, rfl, rfl, fun j _ => rfl, ?_⟩
      · rw [drawBits_cons_eq, hcoll]
        simp
      · have hnc : ¬ (st.frame_buffer (colIdx px py c) = 1 ∧
            bitAt (st.memory mem_index) c = 1) := by
          intro hcj
          have ht := hiff.mpr hcj
          rw [← hsnd, hcoll] at ht
          cases ht
        rw [if_neg hnc]
        rfl
  | true =>
      refine ⟨setReg (xor_pixel st ((px + c) % 0x100) py (bitAt (st.memory mem_index) c)).1
        0xF 1, ?_, rfl, rfl, ?_, ?_⟩
      · rw [drawBits_cons_eq, hcoll]
        simp
      · intro j hj
        simp only [setReg, if_neg hj]
        rfl
      · have hcj : st.frame_buffer (colIdx px py c) = 1 ∧
            bitAt (st.memory mem_index) c = 1 := by
          apply hiff.mp
          rw [← hsnd]
          exact hcoll
        rw [if_pos hcj]
        simp [setReg]

/-- Invariants of the inner draw loop over a list of column offsets whose
wrapped horizontal positions are pairwise distinct: memory and non-VF
registers are untouched, VF becomes 1 exactly when some column collides
(otherwise it is unchanged), and the frame buffer is XORed at precisely
the touched indices. -/
theorem drawBits_spec (mem_index px py : Nat) (cols : List Nat) :
    ∀ st : Chip8,
      (∀ i, st.frame_buffer i ≤ 1) →
      cols.Pairwise (fun a b => (px + a) % 0x100 % 64 ≠ (px + b) % 0x100 % 64) →
      (drawBits st mem_index px py cols).memory = st.memory ∧
      (∀ j, j ≠ 0xF → (drawBits st mem_index px py cols).reg j = st.reg j) ∧
      ((∃ c ∈ cols, bitAt (st.memory mem_index) c = 1 ∧
          st.frame_buffer (colIdx px py c) = 1) →
        (drawBits st mem_index px py cols).reg 0xF = 1) ∧
      ((¬ ∃ c ∈ cols, bitAt (st.memory mem_index) c = 1 ∧
          st.frame_buffer (colIdx px py c) = 1) →
        (drawBits st mem_index px py cols).reg 0xF = st.reg 0xF) ∧
      (∀ i, (∀ c ∈ cols, i ≠ colIdx px py c) →
        (drawBits st mem_index px py cols).frame_buffer i = st.frame_buffer i) ∧
      (∀ c ∈ cols, (drawBits st mem_index px py cols).frame_buffer (colIdx px py c) =
        Nat.xor (st.frame_buffer (colIdx px py c)) (bitAt (st.memory mem_index) c)) ∧
      (∀ i, (drawBits st mem_index px py cols).frame_buffer i ≤ 1) := by
  induction cols with
  | nil =>
      intro st hfb _
      refine ⟨rfl, fun j _ => rfl, ?_, fun _ => rfl, fun i _ => rfl, ?_, hfb⟩
      · rintro ⟨c, hc, -, -⟩
        exact absurd hc (List.not_mem_nil c)
      · intro c hc
        exact absurd hc (List.not_mem_nil c)
  | cons c rest IH =>
      intro st hfb hpw
      rw [List.pairwise_cons] at hpw
      obtain ⟨hpw1, hpw2⟩ := hpw
      obtain ⟨st1, hD, hmem1, hfb1, hregne1, hregF1⟩ :=
        drawBits_step st mem_index px py c rest (hfb _)
      have hidx_ne : ∀ c' ∈ rest, colIdx px py c' ≠ colIdx px py c := by
        intro c' hc' heq
        unfold colIdx at heq
        exact hpw1 c' hc' (by omega)
      have hfb1' : ∀ i, st1.frame_buffer i ≤ 1 := by
        intro i
        rw [hfb1]
        dsimp only
        split
        · exact xor_le_one _ _ (hfb _) (bitAt_le_one _ _)
        · exact hfb i
      have hfb_rest : ∀ c' ∈ rest, st1.frame_buffer (colIdx px py c') =
          st.frame_buffer (colIdx px py c') := by
        intro c' hc'
        rw [hfb1]
        dsimp only
        rw [if_neg (hidx_ne c' hc')]
      have hmemB : st1.memory mem_index = st.memory mem_index := by rw [hmem1]
      obtain ⟨IHmem, IHreg, IHco1, IHco0, IHun, IHtc, IHle⟩ := IH st1 hfb1' hpw2
      have hco_conv : (∃ c' ∈ rest, bitAt (st1.memory mem_index) c' = 1 ∧
          st1.frame_buffer (colIdx px py c') = 1) ↔
          (∃ c' ∈ rest, bitAt (st.memory mem_index) c' = 1 ∧
            st.frame_buffer (colIdx px py c') = 1) := by
        constructor <;> rintro ⟨c', hc', h1, h2⟩ <;> refine ⟨c', hc', ?_, ?_⟩
        · rwa [hmemB] at h1
        · rwa [hfb_rest c' hc'] at h2
        · rwa [hmemB]
        · rwa [hfb_rest c' hc']
      rw [hD]
      refine ⟨IHmem.trans hmem1, ?_, ?_, ?_, ?_, ?_, IHle⟩
      · intro j hj
        rw [IHreg j hj, hregne1 j hj]
      · rintro ⟨c', hc', h1, h2⟩
        rcases List.mem_cons.mp hc' with rfl | hc'
        · have hF1 : st1.reg 0xF = 1 := by rw [hregF1, if_pos ⟨h2, h1⟩]
          by_cases hr : ∃ c'' ∈ rest, bitAt (st1.memory mem_index) c'' = 1 ∧
              st1.frame_buffer (colIdx px py c'') = 1
          · exact IHco1 hr
          · rw [IHco0 hr, hF1]
        · exact IHco1 (hco_conv.mpr ⟨c', hc', h1, h2⟩)
      · intro hn
        have hnh : ¬ (st.frame_buffer (colIdx px py c) = 1 ∧
            bitAt (st.memory mem_index) c = 1) := by
          rintro ⟨h2, h1⟩
          exact hn ⟨c, List.mem_cons_self c rest, h1, h2⟩
        have hnr : ¬ ∃ c' ∈ rest, bitAt (st1.memory mem_index) c' = 1 ∧
            st1.frame_buffer (colIdx px py c') = 1 := by
          intro hr
          obtain ⟨c', hc', h1, h2⟩ := hco_conv.mp hr
          exact hn ⟨c', List.mem_cons_of_mem c hc', h1, h2⟩
        rw [IHco0 hnr, hregF1, if_neg hnh]
      · intro i hi
        have hirest : ∀ c' ∈ rest, i ≠ colIdx px py c' := fun c' hc' =>
          hi c' (List.mem_cons_of_mem c hc')
        rw [IHun i hirest, hfb1]
        dsimp only
        rw [if_neg (hi c (List.mem_cons_self c rest))]
      · intro c' hc'
        rcases List.mem_cons.mp hc' with rfl | hc'
        · have h1 : ∀ c'' ∈ rest, colIdx px py c' ≠ colIdx px py c'' := fun c'' hc'' =>
            (hidx_ne c'' hc'').symm
          rw [IHun _ h1, hfb1]
          dsimp only
          rw [if_pos rfl]
        · rw [IHtc c' hc', hfb_rest c' hc', hmemB]

/-- The eight columns of one sprite row land on pairwise distinct wrapped
horizontal positions. -/
theorem range8_cols_pairwise (px : Nat) :
    (List.range 8).Pairwise (fun a b => (px + a) % 0x100 % 64 ≠ (px + b) % 0x100 % 64) :=
  (List.pairwise_lt_range 8).imp_of_mem (by
    intro a b ha hb hab
    rw [List.mem_range] at ha hb
    omega)

/-- The at most 16 rows of one sprite land on pairwise distinct wrapped
vertical positions. -/
theorem rangeN_rows_pairwise (vy n : Nat) (hn : n ≤ 16) :
    (List.range n).Pairwise (fun a b => (vy + a) % 0x100 % 32 ≠ (vy + b) % 0x100 % 32) :=
  (List.pairwise_lt_range n).imp_of_mem (by
    intro a b ha hb hab
    rw [List.mem_range] at ha hb
    omega)

/-- Unfolding equation for one step of the outer draw loop. -/
theorem drawRows_cons_eq (st : Chip8) (base vx vy r : Nat) (rest : List Nat) :
    drawRows st base vx vy (r :: rest) =
      drawRows (drawBits st (base + r) vx ((vy + r) % 0x100) (List.range 8))
        base vx vy rest := by
  unfold drawRows
  rw [List.foldl_cons]

set_option maxHeartbeats 1600000 in
/-- Invariants of the outer draw loop over a list of row offsets whose
wrapped vertical positions are pairwise distinct: memory and non-VF
registers are untouched, VF becomes 1 exactly when some pixel of some row
collides (otherwise it is unchanged), and the frame buffer is XORed at
precisely the touched indices. -/
theorem drawRows_spec (base vx vy : Nat) (rows : List Nat) :
    ∀ st : Chip8,
      (∀ i, st.frame_buffer i ≤ 1) →
      rows.Pairwise (fun a b => (vy + a) % 0x100 % 32 ≠ (vy + b) % 0x100 % 32) →
      (drawRows st base vx vy rows).memory = st.memory ∧
      (∀ j, j ≠ 0xF → (drawRows st base vx vy rows).reg j = st.reg j) ∧
      ((∃ r ∈ rows, ∃ c ∈ List.range 8, bitAt (st.memory (base + r)) c = 1 ∧
          st.frame_buffer (colIdx vx ((vy + r) % 0x100) c) = 1) →
        (drawRows st base vx vy rows).reg 0xF = 1) ∧
      ((¬ ∃ r ∈ rows, ∃ c ∈ List.range 8, bitAt (st.memory (base + r)) c = 1 ∧
          st.frame_buffer (colIdx vx ((vy + r) % 0x100) c) = 1) →
        (drawRows st base vx vy rows).reg 0xF = st.reg 0xF) ∧
      (∀ i, (∀ r ∈ rows, ∀ c ∈ List.range 8, i ≠ colIdx vx ((vy + r) % 0x100) c) →
        (drawRows st base vx vy rows).frame_buffer i = st.frame_buffer i) ∧
      (∀ r ∈ rows, ∀ c ∈ List.range 8,
        (drawRows st base vx vy rows).frame_buffer (colIdx vx ((vy + r) % 0x100) c) =
          Nat.xor (st.frame_buffer (colIdx vx ((vy + r) % 0x100) c))
            (bitAt (st.memory (base + r)) c)) ∧
      (∀ i, (drawRows st base vx vy rows).frame_buffer i ≤ 1) := by
  induction rows with
  | nil =>
      intro st hfb _
      refine ⟨rfl, fun j _ => rfl, ?_, fun _ => rfl, fun i _ => rfl, ?_, hfb⟩
      · rintro ⟨r, hr, -⟩
        exact absurd hr (List.not_mem_nil r)
      · intro r hr
        exact absurd hr (List.not_mem_nil r)
  | cons r rest IH =>
      intro st hfb hpw
      rw [List.pairwise_cons] at hpw
      obtain ⟨hpw1, hpw2⟩ := hpw
      obtain ⟨Bmem, Breg, Bco1, Bco0, Bun, Btc, Ble⟩ :=
        drawBits_spec (base + r) vx ((vy + r) % 0x100) (List.range 8) st hfb
          (range8_cols_pairwise vx)
      set st1 := drawBits st (base + r) vx ((vy + r) % 0x100) (List.range 8) with hst1
      have hidx_ne : ∀ r' ∈ rest, ∀ c c' : Nat,
          colIdx vx ((vy + r') % 0x100) c' ≠ colIdx vx ((vy + r) % 0x100) c := by
        intro r' hr' c c' heq
        unfold colIdx at heq
        exact hpw1 r' hr' (by omega)
      have hfb_rest : ∀ r' ∈ rest, ∀ c' : Nat,
          st1.frame_buffer (colIdx vx ((vy + r') % 0x100) c') =
            st.frame_buffer (colIdx vx ((vy + r') % 0x100) c') := by
        intro r' hr' c'
        exact Bun _ (fun c'' hc'' => hidx_ne r' hr' c'' c')
      have hmem_all : ∀ a, st1.memory a = st.memory a := fun a => by rw [Bmem]
      obtain ⟨IHmem, IHreg, IHco1, IHco0, IHun, IHtc, IHle⟩ := IH st1 Ble hpw2
      have hco_conv : (∃ r' ∈ rest, ∃ c' ∈ List.range 8,
          bitAt (st1.memory (base + r')) c' = 1 ∧
          st1.frame_buffer (colIdx vx ((vy + r') % 0x100) c') = 1) ↔
          (∃ r' ∈ rest, ∃ c' ∈ List.range 8,
            bitAt (st.memory (base + r')) c' = 1 ∧
            st.frame_buffer (colIdx vx ((vy + r') % 0x100) c') = 1) := by
        constructor <;> rintro ⟨r', hr', c', hc', h1, h2⟩ <;>
          refine ⟨r', hr', c', hc', ?_, ?_⟩
        · rwa [hmem_all] at h1
        · rwa [hfb_rest r' hr' c'] at h2
        · rwa [hmem_all]
        · rwa [hfb_rest r' hr' c']
      rw [drawRows_cons_eq, ← hst1]
      refine ⟨IHmem.trans Bmem, ?_, ?_, ?_, ?_, ?_, IHle⟩
      · intro j hj
        rw [IHreg j hj, Breg j hj]
      · rintro ⟨r', hr', c', hc', h1, h2⟩
        rcases List.mem_cons.mp hr' with rfl | hr'
        · have hF1 : st1.reg 0xF = 1 := Bco1 ⟨c', hc', h1, h2⟩
          by_cases hr2 : ∃ r'' ∈ rest, ∃ c'' ∈ List.range 8,
              bitAt (st1.memory (base + r'')) c'' = 1 ∧
              st1.frame_buffer (colIdx vx ((vy + r'') % 0x100) c'') = 1
          · exact IHco1 hr2
          · rw [IHco0 hr2, hF1]
        · exact IHco1 (hco_conv.mpr ⟨r', hr', c', hc', h1, h2⟩)
      · intro hn
        have hnh : ¬ ∃ c' ∈ List.range 8, bitAt (st.memory (base + r)) c' = 1 ∧
            st.frame_buffer (colIdx vx ((vy + r) % 0x100) c') = 1 := by
          rintro ⟨c', hc', h1, h2⟩
          exact hn ⟨r, List.mem_cons_self r rest, c', hc', h1, h2⟩
        have hnr : ¬ ∃ r' ∈ rest, ∃ c' ∈ List.range 8,
            bitAt (st1.memory (base + r')) c' = 1 ∧
            st1.frame_buffer (colIdx vx ((vy + r') % 0x100) c') = 1 := by
          intro hr2
          obtain ⟨r', hr', c', hc', h1, h2⟩ := hco_conv.mp hr2
          exact hn ⟨r', List.mem_cons_of_mem r hr', c', hc', h1, h2⟩
        rw [IHco0 hnr, Bco0 hnh]
      · intro i hi
        have hirest : ∀ r' ∈ rest, ∀ c' ∈ List.range 8,
            i ≠ colIdx vx ((vy + r') % 0x100) c' := fun r' hr' c' hc' =>
          hi r' (List.mem_cons_of_mem r hr') c' hc'
        rw [IHun i hirest, Bun i (fun c' hc' => hi r (List.mem_cons_self r rest) c' hc')]
      · intro r' hr' c' hc'
        rcases List.mem_cons.mp hr' with rfl | hr'
        · rw [IHun _ (fun r'' hr'' c'' hc'' => (hidx_ne r'' hr'' c' c'').symm), Btc c' hc']
        · rw [IHtc r' hr' c' hc', hfb_rest r' hr' c', hmem_all]

/-- Reduction of `display_sprite` in the in-bounds case to the drawing
loops, with the anchor read from the registers before VF is cleared. -/
theorem display_sprite_eq (s : Chip8) (opcode : Nat)
    (hmem : s.index_reg + opcode % 0x10 ≤ MEM_MAX) :
    display_sprite s opcode =
      some (drawRows (setReg s 0xF 0) s.index_reg (s.reg (get_x opcode))
        (s.reg (get_y opcode)) (List.range (opcode % 0x10))) := by
  unfold display_sprite
  rw [if_pos hmem]

/-- C1: for every engine state with a well-formed (0/1-valued) frame
buffer and an in-bounds sprite read, `display_sprite` for the word DXYN
(N = low nibble) reads the N consecutive sprite bytes at the index
register; for row `r < N` and column `c < 8` the pixel at coordinate
`(Vx + c, Vy + r)`, wrapped modulo 64 horizontally and modulo 32
vertically independently per pixel, is replaced by its XOR with sprite bit
`7 - c` (MSB leftmost) of byte `r`; every other pixel is untouched; and VF
ends at 1 iff some touched pixel had bit 1 drawn onto a set pixel
(a set-to-clear transition), ending at 0 otherwise — in particular VF is
cleared before drawing. -/
theorem display_sprite_correct (s : Chip8) (opcode : Nat)
    (hfb : ∀ i, s.frame_buffer i ≤ 1)
    (hmem : s.index_reg + opcode % 0x10 ≤ MEM_MAX) :
    ∃ s', display_sprite s opcode = some s' ∧
      (∀ r, r < opcode % 0x10 → ∀ c, c < 8 →
        s'.frame_buffer
            ((s.reg (get_y opcode) + r) % 32 * 64 + (s.reg (get_x opcode) + c) % 64) =
          Nat.xor
            (s.frame_buffer
              ((s.reg (get_y opcode) + r) % 32 * 64 + (s.reg (get_x opcode) + c) % 64))
            ((s.memory (s.index_reg + r) >>> (7 - c)) % 2)) ∧
      (∀ i, (∀ r, r < opcode % 0x10 → ∀ c, c < 8 →
          i ≠ (s.reg (get_y opcode) + r) % 32 * 64 + (s.reg (get_x opcode) + c) % 64) →
        s'.frame_buffer i = s.frame_buffer i) ∧
      (s'.reg 0xF = 1 ↔ ∃ r, r < opcode % 0x10 ∧ ∃ c, c < 8 ∧
        (s.memory (s.index_reg + r) >>> (7 - c)) % 2 = 1 ∧
        s.frame_buffer
          ((s.reg (get_y opcode) + r) % 32 * 64 + (s.reg (get_x opcode) + c) % 64) = 1) ∧
      (s'.reg 0xF = 0 ↔ ¬ ∃ r, r < opcode % 0x10 ∧ ∃ c, c < 8 ∧
        (s.memory (s.index_reg + r) >>> (7 - c)) % 2 = 1 ∧
        s.frame_buffer
          ((s.reg (get_y opcode) + r) % 32 * 64 + (s.reg (get_x opcode) + c) % 64) = 1) := by
  have h0fb : ∀ i, (setReg s 0xF 0).frame_buffer i ≤ 1 := fun i => hfb i
  have h0regF : (setReg s 0xF 0).reg 0xF = 0 := by simp [setReg]
  have hidx : ∀ r c : Nat,
      colIdx (s.reg (get_x opcode)) ((s.reg (get_y opcode) + r) % 0x100) c =
        (s.reg (get_y opcode) + r) % 32 * 64 + (s.reg (get_x opcode) + c) % 64 := by
    intro r c
    unfold colIdx
    omega
  obtain ⟨Rmem, Rreg, Rco1, Rco0, Run, Rtc, Rle⟩ :=
    drawRows_spec s.index_reg (s.reg (get_x opcode)) (s.reg (get_y opcode))
      (List.range (opcode % 0x10)) (setReg s 0xF 0) h0fb
      (rangeN_rows_pairwise (s.reg (get_y opcode)) (opcode % 0x10) (by omega))
  have hconv : (∃ r ∈ List.range (opcode % 0x10), ∃ c ∈ List.range 8,
      bitAt ((setReg s 0xF 0).memory (s.index_reg + r)) c = 1 ∧
      (setReg s 0xF 0).frame_buffer
        (colIdx (s.reg (get_x opcode)) ((s.reg (get_y opcode) + r) % 0x100) c) = 1) ↔
      (∃ r, r < opcode % 0x10 ∧ ∃ c, c < 8 ∧
        (s.memory (s.index_reg + r) >>> (7 - c)) % 2 = 1 ∧
        s.frame_buffer
          ((s.reg (get_y opcode) + r) % 32 * 64 + (s.reg (get_x opcode) + c) % 64) = 1) := by
    constructor
    · rintro ⟨r, hr, c, hc, h1, h2⟩
      rw [List.mem_range] at hr hc
      rw [hidx] at h2
      exact ⟨r, hr, c, hc, h1, h2⟩
    · rintro ⟨r, hr, c, hc, h1, h2⟩
      refine ⟨r, List.mem_range.mpr hr, c, List.mem_range.mpr hc, h1, ?_⟩
      rw [hidx]
      exact h2
  refine ⟨drawRows (setReg s 0xF 0) s.index_reg (s.reg (get_x opcode))
      (s.reg (get_y opcode)) (List.range (opcode % 0x10)),
    display_sprite_eq s opcode hmem, ?_, ?_, ?_, ?_⟩
  · intro r hr c hc
    have h := Rtc r (List.mem_range.mpr hr) c (List.mem_range.mpr hc)
    rw [hidx] at h
    exact h
  · intro i hi
    refine Run i ?_
    intro r hrm c hcm
    rw [List.mem_range] at hrm hcm
    rw [hidx]
    exact hi r hrm c hcm
  · constructor
    · intro h1
      by_contra hn
      rw [Rco0 (fun hx => hn (hconv.mp hx)), h0regF] at h1
      exact absurd h1 (by decide)
    · intro hex
      exact Rco1 (hconv.mpr hex)
  · constructor
    · intro h0 hex
      rw [Rco1 (hconv.mpr hex)] at h0
      exact absurd h0 (by decide)
    · intro hn
      rw [Rco0 (fun hx => hn (hconv.mp hx)), h0regF]

/-- Witness for C1: drawing the 5-byte glyph at 0x50 (opcode 0xD005) on a
fresh engine whose index register points at the font table. -/
theorem display_sprite_correct_witness :
    ((∀ i, c1state.frame_buffer i ≤ 1) ∧
      c1state.index_reg + 0xD005 % 0x10 ≤ MEM_MAX) ∧
    (∃ s', display_sprite c1state 0xD005 = some s' ∧
      (∀ r, r < 0xD005 % 0x10 → ∀ c, c < 8 →
        s'.frame_buffer ((c1state.reg (get_y 0xD005) + r) % 32 * 64 +
            (c1state.reg (get_x 0xD005) + c) % 64) =
          Nat.xor
            (c1state.frame_buffer ((c1state.reg (get_y 0xD005) + r) % 32 * 64 +
              (c1state.reg (get_x 0xD005) + c) % 64))
            ((c1state.memory (c1state.index_reg + r) >>> (7 - c)) % 2)) ∧
      (∀ i, (∀ r, r < 0xD005 % 0x10 → ∀ c, c < 8 →
          i ≠ (c1state.reg (get_y 0xD005) + r) % 32 * 64 +
            (c1state.reg (get_x 0xD005) + c) % 64) →
        s'.frame_buffer i = c1state.frame_buffer i) ∧
      (s'.reg 0xF = 1 ↔ ∃ r, r < 0xD005 % 0x10 ∧ ∃ c, c < 8 ∧
        (c1state.memory (c1state.index_reg + r) >>> (7 - c)) % 2 = 1 ∧
        c1state.frame_buffer ((c1state.reg (get_y 0xD005) + r) % 32 * 64 +
          (c1state.reg (get_x 0xD005) + c) % 64) = 1) ∧
      (s'.reg 0xF = 0 ↔ ¬ ∃ r, r < 0xD005 % 0x10 ∧ ∃ c, c < 8 ∧
        (c1state.memory (c1state.index_reg + r) >>> (7 - c)) % 2 = 1 ∧
        c1state.frame_buffer ((c1state.reg (get_y 0xD005) + r) % 32 * 64 +
          (c1state.reg (get_x 0xD005) + c) % 64) = 1)) :=
  ⟨⟨fun i => Nat.zero_le 1, by decide⟩,
    display_sprite_correct c1state 0xD005 (fun i => Nat.zero_le 1) (by decide)⟩
